import Mathlib

/-!
# Verification of the IntelMQ NG bot orchestrator

A shallow embedding of the bot process orchestrator from
`intelmq/lib/process_manager.py` and `intelmq/lib/controller.py`:

* the process identity verifier `IntelMQProcessManager._interpret_commandline`;
* the local NG process backend `IntelMQProcessManagerNG`
  (`bot_status`, `bot_start`, `_get_bot_process`), with the OS process table
  (`psutil`) modelled as a per-call snapshot of the facts the code queries
  (PID-file content, `pid_exists`, the process command line, its status, and
  whether a non-blocking `wait` succeeds);
* the supervised backend's status query `SupervisorProcessManager.bot_status`,
  whose self-recursion is modelled with explicit fuel;
* the fleet controller `IntelMQControllerNG`
  (`get_bots`, `get_queues`, `queue_clear`, `bots_restart`,
  `edit_runtime_configuration` / `edit_pipeline_configuration`), with the
  process manager and the pipeline transport abstracted as oracles, exactly
  at the call boundaries the controller uses.

Python strings are Lean `String`s; Python's string comparison and
`str.endswith` act on code points, so they are evaluated on `String.data`
(`List Char`), which the kernel can reduce.
-/

namespace IntelMQ

/-- Decidable equality for `Except`, so concrete results can be `decide`d. -/
instance {ε α : Type} [DecidableEq ε] [DecidableEq α] : DecidableEq (Except ε α) := fun x y =>
  match x, y with
  | .ok a, .ok b =>
    if h : a = b then .isTrue (by rw [h]) else .isFalse (by simp [h])
  | .error a, .error b =>
    if h : a = b then .isTrue (by rw [h]) else .isFalse (by simp [h])
  | .ok _, .error _ => .isFalse (by simp)
  | .error _, .ok _ => .isFalse (by simp)

/-- Python string `<=` (lexicographic on code points), the order used by
`sorted`. Evaluated on `String.data` so that the kernel can reduce it. -/
def strLe (a b : String) : Prop := a.data ≤ b.data

instance : DecidableRel strLe := fun a b => inferInstanceAs (Decidable (a.data ≤ b.data))

instance : IsTotal String strLe := ⟨fun a b => le_total a.data b.data⟩

instance : IsTrans String strLe := ⟨fun _ _ _ h1 h2 => le_trans h1 h2⟩

/-- Python `sorted` for a list of strings (any stable comparison sort; the
output is characterised by sortedness and being a permutation). -/
def pySorted (l : List String) : List String := l.insertionSort strLe

/-- Python `sorted(list(set(l)))`: duplicates dropped, then sorted. -/
def pySortedDedup (l : List String) : List String := pySorted l.dedup

/-- Python `str.endswith` on code points. -/
def pyEndsWith (s suffix : String) : Bool := suffix.data.isSuffixOf s.data

/-! ## Process identity verifier (`IntelMQProcessManager._interpret_commandline`)

The Python function returns `True`, `False`, or an error string. -/

/-- Return value of `_interpret_commandline`: `True`/`False` or an error
string (the Python messages also interpolate the `%r` of the command line,
which is elided here). -/
inductive InterpretResult where
  | verdict (b : Bool)
  | message (s : String)
  deriving DecidableEq

/-- `IntelMQProcessManager._interpret_commandline(pid, cmdline, module, bot_id)`.

```python
if len(cmdline) > 2 and cmdline[1].endswith('/%s' % module):
    if cmdline[2] == bot_id: return True
    else: return False
elif (len(cmdline) > 3 and cmdline[1].endswith('/intelmqctl') and
      cmdline[2] == 'run'):
    if cmdline[3] == bot_id: return True
    else: return False
elif len(cmdline) > 1:
    return 'Commandline of the process %d with commandline %r could not be interpreted.' % ...
else:
    return 'Unhandled error checking the process %d with commandline %r.' % ...
``` -/
def interpret_commandline (pid : Int) (cmdline : List String)
    (module bot_id : String) : InterpretResult :=
  if cmdline.length > 2 && pyEndsWith (cmdline.getD 1 "") ("/" ++ module) then
    .verdict (cmdline.getD 2 "" == bot_id)
  else if cmdline.length > 3 && pyEndsWith (cmdline.getD 1 "") "/intelmqctl"
      && cmdline.getD 2 "" == "run" then
    .verdict (cmdline.getD 3 "" == bot_id)
  else if cmdline.length > 1 then
    .message ("Commandline of the process " ++ toString pid ++ " could not be interpreted.")
  else
    .message ("Unhandled error checking the process " ++ toString pid ++ ".")

/-! ## Local NG process backend (`IntelMQProcessManagerNG`)

The methods query the OS through `psutil` and the PID-file directory.  A
call's view of the OS is modelled as a snapshot (`BotEnv`): the parsed
PID-file content, `psutil.pid_exists`, the outcome of building
`psutil.Process(pid)` and reading its command line, the process status
(collapsed to whether it is in `{STATUS_STOPPED, STATUS_DEAD,
STATUS_ZOMBIE}`), and whether the non-blocking `process.wait(timeout=0)` of
`_process_finished` succeeds.  The snapshot is held fixed across the
repeated queries a single orchestrator call makes. -/

/-- Outcome of `psutil.Process(pid)` / `process.cmdline()` for the PID named
by the PID file: the command line together with the process status
(`terminal` = status in `{STATUS_STOPPED, STATUS_DEAD, STATUS_ZOMBIE}`) and
whether `process.wait(timeout=0)` finishes, or one of the two psutil
exceptions. -/
inductive ProcQuery where
  | noSuchProcess
  | accessDenied
  | found (argv : List String) (terminal : Bool) (waitFinishes : Bool)
  deriving DecidableEq

/-- Snapshot of everything `IntelMQProcessManagerNG` queries about one bot. -/
structure BotEnv where
  /-- Result of `_get_bot_pid`: the integer in the PID file, `-1` when the
  file is absent or does not parse as an integer. -/
  pidFromFile : Int
  /-- `psutil.pid_exists(pid)`. -/
  pidExists : Bool
  /-- `shutil.which(module)` for the bot's configured module. -/
  modulePath : Option String
  /-- `shutil.which("intelmqctl")`. -/
  intelmqctlPath : Option String
  /-- Result of querying the process named by the PID file. -/
  query : ProcQuery
  /-- `_bot_enabled`: `runtime_configuration[bot_id].get('enabled', True)`. -/
  enabled : Bool
  /-- The bot id the call is about. -/
  botId : String
  deriving DecidableEq

/-- The command-line test of `_get_bot_process` (note: exact equality with
the resolved paths, unlike the legacy manager's suffix match):

```python
argc > 2 and argv[1] == module_path and argv[2] == bot_id or \
    argc > 3 and argv[1] == intelmqctl_path and argv[2] == "run" and argv[3] == bot_id
```

`intelmqctl_path` may be `None`; comparing a string against `None` is
`False` in Python. -/
def identityMatches (e : BotEnv) (argv : List String) : Bool :=
  (argv.length > 2 && e.modulePath == some (argv.getD 1 "") && argv.getD 2 "" == e.botId)
  || (argv.length > 3 && e.intelmqctlPath == some (argv.getD 1 "")
      && argv.getD 2 "" == "run" && argv.getD 3 "" == e.botId)

/-- `IntelMQProcessManagerNG._get_bot_process`, with its side effect made
explicit: the first component is the returned process (reduced to its
`terminal` flag, the only fact later code reads from it; `none` models the
Python `None`), the second records whether `_remove_pidfile` was called.

```python
if pid == -1: return None
elif not psutil.pid_exists(pid): self._remove_pidfile(bot_id); return None
module_path = shutil.which(module); intelmqctl_path = shutil.which("intelmqctl")
if module_path is None: ...log...; return None
try:
    process = psutil.Process(pid); argv = process.cmdline()
    if <identityMatches>:
        if process.status() in [STOPPED, DEAD, ZOMBIE]:
            if self._process_finished(process): self._remove_pidfile(bot_id); return None
            else: ...log...
        return process
    else: self._remove_pidfile(bot_id); return None
except psutil.NoSuchProcess: self._remove_pidfile(bot_id); return None
except psutil.AccessDenied: ...log...; return None
``` -/
def get_bot_process (e : BotEnv) : Option Bool × Bool :=
  if e.pidFromFile == -1 then (none, false)
  else if !e.pidExists then (none, true)
  else
    match e.modulePath with
    | none => (none, false)
    | some _ =>
      match e.query with
      | .noSuchProcess => (none, true)
      | .accessDenied => (none, false)
      | .found argv terminal waitFinishes =>
        if identityMatches e argv then
          if terminal then
            if waitFinishes then (none, true)
            else (some terminal, false)
          else (some terminal, false)
        else (none, true)

/-- `IntelMQProcessManagerNG.bot_status`:

```python
bot_process = self._get_bot_process(bot_id)
if bot_process:
    if bot_process.status() not in [STOPPED, DEAD, ZOMBIE]: return "running"
    else: return "unknown"
else:
    if self._bot_enabled(bot_id): return "stopped"
    else: return "disabled"
``` -/
def bot_status (e : BotEnv) : String :=
  match (get_bot_process e).1 with
  | some terminal => if terminal then "unknown" else "running"
  | none => if e.enabled then "stopped" else "disabled"

/-- `IntelMQProcessManagerNG.bot_start`.  `spawnSucceeds` models whether
`psutil.Popen` finds the executable (its `FileNotFoundError` is the caught
failure); the second component of the result records whether a new process
was spawned.

```python
bot_status = self.bot_status(bot_id)
if bot_status == "disabled" or bot_status == "running": return bot_status
elif bot_status == "unknown":
    if not self._process_finished(self._get_bot_process(bot_id)):
        ...log...; return "failed"
try:
    bot_process = psutil.Popen(cmdargs, ...)
    self._create_pidfile(bot_id, bot_process.pid)
    ...log...; return "starting"
except FileNotFoundError:
    ...log...; return "failed"
``` -/
def bot_start (e : BotEnv) (spawnSucceeds : Bool) : String × Bool :=
  let status := bot_status e
  if status == "disabled" || status == "running" then (status, false)
  else if status == "unknown"
      && !(match e.query with
           | .found _ _ waitFinishes => waitFinishes
           | _ => false) then
    ("failed", false)
  else if spawnSucceeds then ("starting", true)
  else ("failed", false)

/-! ## Supervised backend status query (`SupervisorProcessManager.bot_status`)

The supervision daemon's process-state enumeration, and the status query,
which calls itself again (after `time.sleep(0.1)`) as long as the daemon
reports `STARTING`.  The daemon's answers are an oracle indexed by the
query count; the recursion gets explicit fuel, `none` meaning that the
call has not returned within that many queries. -/

/-- `SupervisorProcessManager.ProcessState` (the daemon's enumeration). -/
inductive ProcessState where
  | stopped | starting | running | backoff | stopping | exited | fatal | unknown
  deriving DecidableEq

/-- `SupervisorProcessManager.bot_status`; `stateAt k` is the daemon's answer
to the `k`-th `_get_process_state` call (`none` = `BAD_NAME`, no such
process).

```python
state = self._get_process_state(bot_id)
if state is None:
    if not self.__controller._is_enabled(bot_id): return "disabled"
    else: return "stopped"
if state == self.ProcessState.STARTING:
    time.sleep(0.1)
    return self.bot_status(bot_id)
elif state == self.ProcessState.RUNNING: return "running"
elif state == self.ProcessState.STOPPING: return "stopping"
else: return "stopped"
``` -/
def supervisor_bot_status (enabled : Bool) (stateAt : Nat → Option ProcessState) :
    Nat → Nat → Option String
  | _, 0 => none
  | k, fuel + 1 =>
    match stateAt k with
    | none => some (if !enabled then "disabled" else "stopped")
    | some .starting => supervisor_bot_status enabled stateAt (k + 1) fuel
    | some .running => some "running"
    | some .stopping => some "stopping"
    | some _ => some "stopped"

/-- The supervised status query never returns, whatever fuel it is given:
with this daemon behaviour every recursion depth is exhausted without
producing an answer. -/
def supervisorStatusDiverges (enabled : Bool)
    (stateAt : Nat → Option ProcessState) : Prop :=
  ∀ fuel k, supervisor_bot_status enabled stateAt k fuel = none

/-! ## Fleet controller (`IntelMQControllerNG`)

The runtime configuration is a Python dict: an insertion-ordered
association list from bot id to its configuration.  Only the fields the
verified operations read are modelled; `.get('enabled', True)` and
`.get('group')` defaults are folded into the field defaults. -/

/-- The fields of one bot's runtime configuration that the controller and
process manager read. -/
structure BotConfig where
  module : String := ""
  /-- `.get('enabled', True)`. -/
  enabled : Bool := true
  /-- `.get('group')`: `none` models an absent key (Python `None`). -/
  group : Option String := none
  deriving DecidableEq

/-- The runtime configuration dict, keyed by bot id. -/
abbrev RuntimeConfiguration := List (String × BotConfig)

/-- `BOT_GROUP = {"collectors": "Collector", "parsers": "Parser",
"experts": "Expert", "outputs": "Output"}`. -/
def BOT_GROUP : List (String × String) :=
  [("collectors", "Collector"), ("parsers", "Parser"),
   ("experts", "Expert"), ("outputs", "Output")]

/-- The keys of the runtime configuration dict, in insertion order. -/
def botIds (cfg : RuntimeConfiguration) : List String := cfg.map Prod.fst

/-- `group_or_bot_id in BOT_GROUP`. -/
def isGroup (s : String) : Bool := (BOT_GROUP.lookup s).isSome

/-- `[bot_id for bot_id in runtime_configuration if
runtime_configuration[bot_id].get("group") == BOT_GROUP[g]]` (in dict
order; `None == "..."` is `False` in Python). -/
def groupMembers (cfg : RuntimeConfiguration) (g : String) : List String :=
  (cfg.filter (fun p => p.2.group == BOT_GROUP.lookup g)).map Prod.fst

/-- The `bots` argument of `IntelMQControllerNG.get_bots`: `None`, a single
string, or a list of strings. -/
inductive Selector where
  | none
  | str (s : String)
  | list (l : List String)
  deriving DecidableEq

/-- The single-string branch of `get_bots`; an `unknown bot` error
(`BotNotExists`) carries the offending id.

```python
if allow_groups and group_or_bot_id in BOT_GROUP:
    return sorted([...members...])
elif group_or_bot_id in self.runtime_configuration.keys():
    return [group_or_bot_id]
else:
    raise BotNotExists(bot_id=group_or_bot_id)
``` -/
def get_bots_str (cfg : RuntimeConfiguration) (allowGroups : Bool) (s : String) :
    Except String (List String) :=
  if allowGroups && isGroup s then
    .ok (pySorted (groupMembers cfg s))
  else if (cfg.lookup s).isSome then
    .ok [s]
  else
    .error s

/-- The loop body of the list branch of `get_bots`.  Note that the nested
`self.get_bots(value)` call uses the *default* `allow_groups=True`, and
that a group element contributes its members twice (the comprehension plus
the nested call) before the final dedup.

```python
for value in group_or_bot_id:
    if allow_groups and value in BOT_GROUP:
        bots += [...members...]
    elif value not in existing_bots:
        raise BotNotExists(bot_id=value)
    bots += self.get_bots(value)
``` -/
def get_bots_loop (cfg : RuntimeConfiguration) (allowGroups : Bool) :
    List String → List String → Except String (List String)
  | acc, [] => .ok acc
  | acc, v :: vs =>
    if allowGroups && isGroup v then
      match get_bots_str cfg true v with
      | .ok r => get_bots_loop cfg allowGroups (acc ++ groupMembers cfg v ++ r) vs
      | .error e => .error e
    else if (cfg.lookup v).isNone then
      .error v
    else
      match get_bots_str cfg true v with
      | .ok r => get_bots_loop cfg allowGroups (acc ++ r) vs
      | .error e => .error e

/-- `IntelMQControllerNG.get_bots`.

```python
if group_or_bot_id is None or group_or_bot_id == []:
    return sorted(self.runtime_configuration.keys())
if type(group_or_bot_id) == str: ...  # get_bots_str
elif type(group_or_bot_id) == list:
    ...loop...
    return sorted(list(set(bots)))
``` -/
def get_bots (cfg : RuntimeConfiguration) (sel : Selector)
    (allowGroups : Bool := true) : Except String (List String) :=
  match sel with
  | .none => .ok (pySorted (botIds cfg))
  | .str s => get_bots_str cfg allowGroups s
  | .list [] => .ok (pySorted (botIds cfg))
  | .list (v :: vs) => (get_bots_loop cfg allowGroups [] (v :: vs)).map pySortedDedup

/-- `IntelMQControllerNG.get_queues`.

```python
bots = self.get_bots(bots)
if all:
    queues = [bot_id + "-queue" for bot_id in bots] + \
             [bot_id + "-queue-internal" for bot_id in bots]
elif internal:
    queues = [bot_id + "-queue-internal" for bot_id in bots]
else:
    queues = [bot_id + "-queue" for bot_id in bots]
return sorted(list(set(queues)))
``` -/
def get_queues (cfg : RuntimeConfiguration) (sel : Selector)
    (internal : Bool := false) (all : Bool := false) : Except String (List String) :=
  (get_bots cfg sel).map fun bots =>
    let queues :=
      if all then
        bots.map (· ++ "-queue") ++ bots.map (· ++ "-queue-internal")
      else if internal then
        bots.map (· ++ "-queue-internal")
      else
        bots.map (· ++ "-queue")
    pySortedDedup queues

/-- `IntelMQControllerNG.queue_clear`.  `clearSucceeds q` models whether the
transport's `pipeline.clear_queue(q)` returns or raises; the returned
association list is the `cleared_queues` dict in insertion order.

```python
cleared_queues = dict()
queues = self.get_queues(bots, internal, all)
with self._connect_pipeline() as pipeline:
    for queue in queues:
        try:
            pipeline.clear_queue(queue)
            cleared_queues[queue] = "cleared"
        except Exception:
            cleared_queues[queue] = "failed"
return cleared_queues
``` -/
def queue_clear (cfg : RuntimeConfiguration) (sel : Selector)
    (internal : Bool) (all : Bool) (clearSucceeds : String → Bool) :
    Except String (List (String × String)) :=
  (get_queues cfg sel internal all).map fun queues =>
    queues.foldl
      (fun acc q =>
        if clearSucceeds q then acc ++ [(q, "cleared")]
        else acc ++ [(q, "failed")])
      []

/-! ## Scoped configuration edit transactions

`edit_runtime_configuration` / `edit_pipeline_configuration` are
`@contextmanager`s: they hash `str(config)` on entry, run the edit block,
hash `str(config)` again, and rewrite the file only when the two hashes
differ.  `render` models Python `str` on the configuration object and
`hash` Python's (process-seeded) `hash`; both are parameters, since neither
is transcribable.  The disk effect is reduced to the `written` flag. -/

/-- Result of a scoped edit: the configuration after the edit block, and
whether the configuration file was rewritten. -/
structure EditOutcome (Cfg : Type) where
  result : Cfg
  written : Bool

/-- `IntelMQControllerNG.edit_runtime_configuration`.

```python
original_hash = hash(str(self._runtime_configuration))
yield self._runtime_configuration            # the edit block
modified_hash = hash(str(self._runtime_configuration))
if original_hash != modified_hash:
    with open(RUNTIME_CONF_FILE, 'w') as f:
        json.dump(...)
``` -/
def edit_runtime_configuration {Cfg Hash : Type} [DecidableEq Hash]
    (hash : String → Hash) (render : Cfg → String)
    (cfg : Cfg) (edit : Cfg → Cfg) : EditOutcome Cfg :=
  let originalHash := hash (render cfg)
  let cfg' := edit cfg
  let modifiedHash := hash (render cfg')
  ⟨cfg', decide ¬originalHash = modifiedHash⟩

/-- `IntelMQControllerNG.edit_pipeline_configuration` — same transaction on
the pipeline configuration file. -/
def edit_pipeline_configuration {Cfg Hash : Type} [DecidableEq Hash]
    (hash : String → Hash) (render : Cfg → String)
    (cfg : Cfg) (edit : Cfg → Cfg) : EditOutcome Cfg :=
  let originalHash := hash (render cfg)
  let cfg' := edit cfg
  let modifiedHash := hash (render cfg')
  ⟨cfg', decide ¬originalHash = modifiedHash⟩

/-! ## `IntelMQControllerNG.bots_stop` / `bots_status` / `bots_start` / `bots_restart`

The fleet operations each re-resolve their argument through `get_bots`
(`{bot_id: self.process_manager.bot_xxx(bot_id) for bot_id in
self.get_bots(bots)}`) and reach the process manager only through
`bot_stop` / `bot_status` / `bot_start` on single bot ids; those per-bot
calls are abstracted as an oracle.  Note the consequence of the
re-resolution: a fleet call on an *empty* list resolves, like an absent
selector, to all configured bot ids.  `bots_status` is called once per
poll round of `bots_restart`, so the status answers are additionally
indexed by the round (the OS may answer differently each time). -/

/-- The process-manager call boundary as the fleet operations see it. -/
structure PMOracle where
  /-- `process_manager.bot_stop bot_id` outcome per bot. -/
  stop : String → String
  /-- `process_manager.bot_status bot_id` outcome, per poll round and bot. -/
  statusAt : Nat → String → String
  /-- `process_manager.bot_start bot_id` outcome per bot. -/
  start : String → String

/-- `IntelMQControllerNG.bots_stop`:

```python
return {bot_id: self.process_manager.bot_stop(bot_id) for bot_id in self.get_bots(bots)}
``` -/
def bots_stop (cfg : RuntimeConfiguration) (o : PMOracle) (sel : Selector) :
    Except String (List (String × String)) :=
  (get_bots cfg sel).map fun bots => bots.map fun b => (b, o.stop b)

/-- `IntelMQControllerNG.bots_status` at poll round `round`:

```python
return {bot_id: self.process_manager.bot_status(bot_id) for bot_id in self.get_bots(bots)}
``` -/
def bots_status (cfg : RuntimeConfiguration) (o : PMOracle) (round : Nat)
    (sel : Selector) : Except String (List (String × String)) :=
  (get_bots cfg sel).map fun bots => bots.map fun b => (b, o.statusAt round b)

/-- `IntelMQControllerNG.bots_start`:

```python
return {bot_id: self.process_manager.bot_start(bot_id) for bot_id in self.get_bots(bots)}
``` -/
def bots_start (cfg : RuntimeConfiguration) (o : PMOracle) (sel : Selector) :
    Except String (List (String × String)) :=
  (get_bots cfg sel).map fun bots => bots.map fun b => (b, o.start b)

/-- `'running' not in statuses.values()` for a resolved bot list at poll
round `i` — the break condition of restart's poll loop. -/
def noneRunning (statusAt : Nat → String → String) (bots : List String)
    (i : Nat) : Bool :=
  !(bots.map (statusAt i)).contains "running"

/-- The abstract shape of restart's bounded poll loop: `ok i` is the break
condition at round `i`; the result counts the polls performed (break after
the first successful poll, give up after `fuel` polls). -/
def restartPollLoop (ok : Nat → Bool) : Nat → Nat → Nat
  | _, 0 => 0
  | i, fuel + 1 => if ok i then 1 else 1 + restartPollLoop ok (i + 1) fuel

/-- The poll loop of `bots_restart`, instrumented with the number of polls
performed; each round calls `bots_status` on the (re-resolved!) stopping
list, and an error there propagates out:

```python
for i in range(10):
    stopping_bots_status = self.bots_status(stopping_bots)
    if 'running' not in stopping_bots_status.values(): break
    time.sleep(0.5)
``` -/
def restartStatusLoop (cfg : RuntimeConfiguration) (o : PMOracle)
    (bots : List String) : Nat → Nat → Except String Nat
  | _, 0 => .ok 0
  | i, fuel + 1 =>
    match bots_status cfg o i (.list bots) with
    | .error e => .error e
    | .ok statuses =>
      if !(statuses.map Prod.snd).contains "running" then .ok 1
      else
        match restartStatusLoop cfg o bots (i + 1) fuel with
        | .error e => .error e
        | .ok n => .ok (1 + n)

/-- `IntelMQControllerNG.bots_restart`, instrumented: the Python method
returns only the final `bots_start` mapping; the model also returns the
`bots_stop` mapping and the number of status polls, so that the claims can
speak about them.  Every nested fleet call re-resolves its list argument
through `get_bots` — in particular an empty `stopping_bots` list resolves
to all configured bot ids.

```python
bots = self.get_bots(bots)
stopping_bots = self.bots_stop(bots)
stopping_bots = [bot for bot in stopping_bots.keys() if stopping_bots[bot] == "stopping"]
for i in range(10):
    stopping_bots_status = self.bots_status(stopping_bots)
    if 'running' not in stopping_bots_status.values(): break
    time.sleep(0.5)
return self.bots_start(stopping_bots)
``` -/
def bots_restart (cfg : RuntimeConfiguration) (o : PMOracle) (sel : Selector) :
    Except String ((List (String × String)) × (List (String × String)) × Nat) :=
  match get_bots cfg sel with
  | .error e => .error e
  | .ok bots =>
    match bots_stop cfg o (.list bots) with
    | .error e => .error e
    | .ok stopOutcomes =>
      let stoppingBots := (stopOutcomes.filter fun p => p.2 == "stopping").map Prod.fst
      match restartStatusLoop cfg o stoppingBots 0 10 with
      | .error e => .error e
      | .ok polls =>
        match bots_start cfg o (.list stoppingBots) with
        | .error e => .error e
        | .ok startOutcomes => .ok (stopOutcomes, startOutcomes, polls)

/-! ## Helper lemmas -/

theorem mem_pySorted {a : String} {l : List String} : a ∈ pySorted l ↔ a ∈ l :=
  (List.perm_insertionSort strLe l).mem_iff

theorem sorted_pySorted (l : List String) : List.Sorted strLe (pySorted l) :=
  List.sorted_insertionSort strLe l

theorem mem_pySortedDedup {a : String} {l : List String} : a ∈ pySortedDedup l ↔ a ∈ l := by
  unfold pySortedDedup pySorted
  rw [(List.perm_insertionSort strLe l.dedup).mem_iff, List.mem_dedup]

theorem sorted_pySortedDedup (l : List String) : List.Sorted strLe (pySortedDedup l) :=
  List.sorted_insertionSort strLe l.dedup

theorem nodup_pySortedDedup (l : List String) : (pySortedDedup l).Nodup :=
  ((List.perm_insertionSort strLe l.dedup).nodup_iff).mpr (List.nodup_dedup l)

/-- The restart poll loop performs at most `fuel` polls. -/
theorem restartPollLoop_le (ok : Nat → Bool) :
    ∀ (fuel i : Nat), restartPollLoop ok i fuel ≤ fuel := by
  intro fuel
  induction fuel with
  | zero =>
    intro i
    simp [restartPollLoop]
  | succ n ih =>
    intro i
    unfold restartPollLoop
    by_cases hi : ok i
    · simp [hi]
    · simp only [hi, Bool.false_eq_true, if_false]
      have := ih (i + 1)
      omega

/-- The restart poll loop always performs at least one poll. -/
theorem restartPollLoop_pos (ok : Nat → Bool) :
    ∀ (fuel i : Nat), 1 ≤ restartPollLoop ok i (fuel + 1) := by
  intro fuel i
  unfold restartPollLoop
  by_cases hi : ok i
  · simp [hi]
  · simp only [hi, Bool.false_eq_true, if_false]
    omega

/-- When the restart poll loop stops strictly before exhausting its fuel,
its last poll observed the break condition. -/
theorem restartPollLoop_break (ok : Nat → Bool) :
    ∀ (fuel i : Nat), restartPollLoop ok i fuel < fuel →
      ok (i + (restartPollLoop ok i fuel - 1)) = true := by
  intro fuel
  induction fuel with
  | zero =>
    intro i h
    simp [restartPollLoop] at h
  | succ n ih =>
    intro i h
    unfold restartPollLoop at h ⊢
    by_cases hi : ok i
    · simp [hi]
    · simp only [hi, Bool.false_eq_true, if_false] at h ⊢
      have hlt : restartPollLoop ok (i + 1) n < n := by omega
      have hpos : 1 ≤ restartPollLoop ok (i + 1) n := by
        rcases n with _ | m
        · simp [restartPollLoop] at hlt
        · exact restartPollLoop_pos ok m (i + 1)
      have hb := ih (i + 1) hlt
      have he : i + 1 + (restartPollLoop ok (i + 1) n - 1) =
          i + (1 + restartPollLoop ok (i + 1) n - 1) := by omega
      rw [he] at hb
      exact hb

/-- Every poll before the restart loop's last one observed `running`. -/
theorem restartPollLoop_before (ok : Nat → Bool) :
    ∀ (fuel i j : Nat), j + 1 < restartPollLoop ok i fuel → ok (i + j) = false := by
  intro fuel
  induction fuel with
  | zero =>
    intro i j h
    simp [restartPollLoop] at h
  | succ n ih =>
    intro i j h
    unfold restartPollLoop at h
    by_cases hi : ok i
    · simp [hi] at h
    · simp only [hi, Bool.false_eq_true, if_false] at h
      rcases j with _ | j'
      · simpa using hi
      · have hj : j' + 1 < restartPollLoop ok (i + 1) n := by omega
        have hb := ih (i + 1) j' hj
        have he : i + 1 + j' = i + (j' + 1) := by omega
        rw [he] at hb
        exact hb

/-- When the stopping list re-resolves successfully to `pbots`, restart's
poll loop returns (no error) and counts exactly the polls of the abstract
bounded loop whose break condition is `noneRunning` over `pbots`. -/
theorem restartStatusLoop_resolved (cfg : RuntimeConfiguration) (o : PMOracle)
    (bots pbots : List String) (h : get_bots cfg (.list bots) = .ok pbots) :
    ∀ (fuel i : Nat),
      restartStatusLoop cfg o bots i fuel =
        .ok (restartPollLoop (noneRunning o.statusAt pbots) i fuel) := by
  intro fuel
  induction fuel with
  | zero =>
    intro i
    rfl
  | succ n ih =>
    intro i
    unfold restartStatusLoop restartPollLoop
    simp only [bots_status, h, Except.map]
    have hmap : ((pbots.map (fun b => (b, o.statusAt i b))).map Prod.snd) =
        pbots.map (o.statusAt i) := by
      simp [List.map_map, Function.comp]
    rw [hmap]
    unfold noneRunning
    by_cases hc : (!(pbots.map (o.statusAt i)).contains "running") = true
    · rw [if_pos hc, if_pos hc]
    · rw [if_neg hc, if_neg hc, ih (i + 1)]
      rfl

/-- Filtering the stop-outcome pairs for `stopping` and projecting the bot
ids is the same as filtering the bot list by its stop outcome. -/
theorem map_filter_stop (stop : String → String) :
    ∀ (bots : List String),
      (((bots.map (fun b => (b, stop b))).filter
        (fun p => p.2 == "stopping")).map Prod.fst) =
      bots.filter (fun b => stop b == "stopping") := by
  intro bots
  induction bots with
  | nil => simp
  | cons b bs ih =>
    by_cases hb : stop b == "stopping"
    · simp only [List.map_cons, List.filter_cons]
      rw [if_pos hb, if_pos hb]
      simp only [List.map_cons, ih]
    · simp only [List.map_cons, List.filter_cons]
      rw [if_neg (by simpa using hb), if_neg (by simpa using hb)]
      exact ih

/-- If some element of the list is neither a known group nor a known bot
id, the `get_bots` loop raises (returns an error), whatever was
accumulated so far. -/
theorem get_bots_loop_error (cfg : RuntimeConfiguration) :
    ∀ (l acc : List String),
      (∃ v ∈ l, isGroup v = false ∧ (cfg.lookup v).isNone = true) →
      ∃ m, get_bots_loop cfg true acc l = .error m := by
  intro l
  induction l with
  | nil =>
    intro acc h
    rcases h with ⟨v, hv, _⟩
    simp at hv
  | cons v vs ih =>
    intro acc h
    rcases h with ⟨w, hw, hw1, hw2⟩
    by_cases hg : isGroup v = true
    · have hne : w ∈ vs := by
        rcases List.mem_cons.mp hw with h | h
        · rw [h] at hw1
          rw [hw1] at hg
          exact absurd hg (by simp)
        · exact h
      rcases ih (acc ++ groupMembers cfg v ++ pySorted (groupMembers cfg v))
          ⟨w, hne, hw1, hw2⟩ with ⟨m, hm⟩
      refine ⟨m, ?_⟩
      have hstr : get_bots_str cfg true v = .ok (pySorted (groupMembers cfg v)) := by
        simp [get_bots_str, hg]
      simp only [get_bots_loop, hg, Bool.and_self, if_pos, hstr]
      exact hm
    · have hg' : isGroup v = false := by
        simpa using hg
      by_cases hl : (cfg.lookup v).isNone = true
      · exact ⟨v, by simp [get_bots_loop, hg', hl]⟩
      · have hl' : (cfg.lookup v).isNone = false := by
          simpa using hl
        have hsome : (cfg.lookup v).isSome = true := by
          rcases hx : cfg.lookup v with _ | u
          · rw [hx] at hl'
            simp at hl'
          · simp
        have hstr : get_bots_str cfg true v = .ok [v] := by
          simp [get_bots_str, hg', hsome]
        have hne : w ∈ vs := by
          rcases List.mem_cons.mp hw with h | h
          · exact absurd (h ▸ hw2) hl
          · exact h
        rcases ih (acc ++ [v]) ⟨w, hne, hw1, hw2⟩ with ⟨m, hm⟩
        refine ⟨m, ?_⟩
        simp only [get_bots_loop, hg', hl', hstr, Bool.true_and, Bool.false_eq_true,
          if_false]
        exact hm

/-- If every element of the list is a known group or a known bot id, the
`get_bots` loop succeeds, and its accumulated output has exactly the
members contributed by the accumulator and the per-element resolutions. -/
theorem get_bots_loop_ok (cfg : RuntimeConfiguration) :
    ∀ (l acc : List String),
      (∀ v ∈ l, isGroup v = true ∨ (cfg.lookup v).isSome = true) →
      ∃ res, get_bots_loop cfg true acc l = .ok res ∧
        ∀ b, b ∈ res ↔
          b ∈ acc ∨ ∃ v ∈ l, ∃ r, get_bots_str cfg true v = .ok r ∧ b ∈ r := by
  intro l
  induction l with
  | nil =>
    intro acc _
    refine ⟨acc, rfl, ?_⟩
    simp
  | cons v vs ih =>
    intro acc h
    by_cases hg : isGroup v = true
    · have hstr : get_bots_str cfg true v = .ok (pySorted (groupMembers cfg v)) := by
        simp [get_bots_str, hg]
      rcases ih (acc ++ groupMembers cfg v ++ pySorted (groupMembers cfg v))
          (fun w hw => h w (List.mem_cons_of_mem v hw)) with ⟨res, heq, hmem⟩
      refine ⟨res, ?_, ?_⟩
      · simp only [get_bots_loop, hg, Bool.and_self, if_pos, hstr]
        exact heq
      · intro b
        rw [hmem b]
        constructor
        · rintro (hb | hb)
          · rcases List.mem_append.mp hb with hb' | hb'
            · rcases List.mem_append.mp hb' with hb'' | hb''
              · exact Or.inl hb''
              · exact Or.inr ⟨v, List.mem_cons_self v vs,
                  pySorted (groupMembers cfg v), hstr, mem_pySorted.mpr hb''⟩
            · exact Or.inr ⟨v, List.mem_cons_self v vs,
                pySorted (groupMembers cfg v), hstr, hb'⟩
          · rcases hb with ⟨w, hw, r, hr, hbr⟩
            exact Or.inr ⟨w, List.mem_cons_of_mem v hw, r, hr, hbr⟩
        · rintro (hb | hb)
          · exact Or.inl (List.mem_append.mpr (Or.inl (List.mem_append.mpr (Or.inl hb))))
          · rcases hb with ⟨w, hw, r, hr, hbr⟩
            rcases List.mem_cons.mp hw with hwv | hwvs
            · rw [hwv] at hr
              rw [hstr] at hr
              have hres : r = pySorted (groupMembers cfg v) := by
                cases hr
                rfl
              rw [hres] at hbr
              exact Or.inl (List.mem_append.mpr (Or.inr hbr))
            · exact Or.inr ⟨w, hwvs, r, hr, hbr⟩
    · have hg' : isGroup v = false := by
        simpa using hg
      have hsome : (cfg.lookup v).isSome = true := by
        rcases h v (List.mem_cons_self v vs) with h' | h'
        · rw [h'] at hg'
          simp at hg'
        · exact h'
      have hl' : (cfg.lookup v).isNone = false := by
        rcases hx : cfg.lookup v with _ | u
        · rw [hx] at hsome
          simp at hsome
        · simp
      have hstr : get_bots_str cfg true v = .ok [v] := by
        simp [get_bots_str, hg', hsome]
      rcases ih (acc ++ [v]) (fun w hw => h w (List.mem_cons_of_mem v hw)) with
        ⟨res, heq, hmem⟩
      refine ⟨res, ?_, ?_⟩
      · simp only [get_bots_loop, hg', hl', hstr, Bool.true_and, Bool.false_eq_true,
          if_false]
        exact heq
      · intro b
        rw [hmem b]
        constructor
        · rintro (hb | hb)
          · rcases List.mem_append.mp hb with hb' | hb'
            · exact Or.inl hb'
            · exact Or.inr ⟨v, List.mem_cons_self v vs, [v], hstr, hb'⟩
          · rcases hb with ⟨w, hw, r, hr, hbr⟩
            exact Or.inr ⟨w, List.mem_cons_of_mem v hw, r, hr, hbr⟩
        · rintro (hb | hb)
          · exact Or.inl (List.mem_append.mpr (Or.inl hb))
          · rcases hb with ⟨w, hw, r, hr, hbr⟩
            rcases List.mem_cons.mp hw with hwv | hwvs
            · rw [hwv] at hr
              rw [hstr] at hr
              have hres : r = [v] := by
                cases hr
                rfl
              rw [hres] at hbr
              exact Or.inl (List.mem_append.mpr (Or.inr hbr))
            · exact Or.inr ⟨w, hwvs, r, hr, hbr⟩

/-! ## Claim C4 — the identity verifier's ordered rules -/

/-- Claim C4, counterexample to rule (c) as stated: for a command line of
two tokens whose second token (`"ls"`) matches neither pattern, the claim
demands Mismatched (`False`, PID record discarded); the code instead
returns an error string (which the caller reports as `unknown`). -/
theorem C4_counterexample :
    interpret_commandline 1 ["python", "ls"] "mod" "bot" ≠ .verdict false ∧
    (match interpret_commandline 1 ["python", "ls"] "mod" "bot" with
     | .message _ => true
     | _ => false) = true := by
  constructor
  · intro h
    exact absurd h (by decide)
  · decide

/-- Claim C4 (amended): the verifier's ordered rules as implemented.
(a) at least three tokens and the second token suffix-matches
`'/' + module`: Confirmed (`True`) when the third token is the bot id,
Mismatched (`False`) otherwise; (b) failing that, at least four tokens with
the second token suffix-matching `/intelmqctl` and the third equal to
`run`: Confirmed when the fourth token is the bot id, Mismatched
otherwise; (c) **any** other command line with at least two tokens —
including a two-token line whose second token suffix-matches the module —
yields an uninterpretable-commandline error string (not `False`); (d)
fewer than two tokens: an unhandled-error string.  The two hypotheses of
conjunct (c) are exactly the negations of the (a)- and (b)-guards for a
command line `a :: b :: rest`. -/
theorem C4_identity_verifier (pid : Int) (module bot_id : String) :
    (∀ a b c rest, pyEndsWith b ("/" ++ module) = true →
      interpret_commandline pid (a :: b :: c :: rest) module bot_id =
        .verdict (c == bot_id)) ∧
    (∀ a b d rest, pyEndsWith b ("/" ++ module) = false →
      pyEndsWith b "/intelmqctl" = true →
      interpret_commandline pid (a :: b :: "run" :: d :: rest) module bot_id =
        .verdict (d == bot_id)) ∧
    (∀ a b rest,
      ¬(1 ≤ rest.length ∧ pyEndsWith b ("/" ++ module) = true) →
      ¬(2 ≤ rest.length ∧ pyEndsWith b "/intelmqctl" = true ∧ rest.getD 0 "" = "run") →
      interpret_commandline pid (a :: b :: rest) module bot_id =
        .message ("Commandline of the process " ++ toString pid ++
          " could not be interpreted.")) ∧
    (∀ cmdline : List String, cmdline.length ≤ 1 →
      interpret_commandline pid cmdline module bot_id =
        .message ("Unhandled error checking the process " ++ toString pid ++ ".")) := by
  refine ⟨?_, ?_, ?_, ?_⟩
  · intro a b c rest h
    simp [interpret_commandline, h]
  · intro a b d rest h1 h2
    simp [interpret_commandline, h1, h2, Nat.lt_add_of_pos_left]
  · intro a b rest h1 h2
    by_cases he : pyEndsWith b ("/" ++ module) = true
    · have hr : rest = [] := by
        cases rest with
        | nil => rfl
        | cons x xs => exact absurd ⟨by simp, he⟩ h1
      subst hr
      simp [interpret_commandline]
    · have he' : pyEndsWith b ("/" ++ module) = false := by
        simpa using he
      have hlen : (a :: b :: rest).length > 1 := by simp
      by_cases h3 : 2 ≤ rest.length
      · by_cases h4 : pyEndsWith b "/intelmqctl" = true
        · have h5 : ¬ rest.getD 0 "" = "run" := fun hc => h2 ⟨h3, h4, hc⟩
          simp [interpret_commandline, he', h4]
          intro _
          simpa [List.getD] using h5
        · simp [interpret_commandline, he', h4]
      · have h3' : (a :: b :: rest).length ≤ 3 := by
          simp only [List.length_cons]
          omega
        simp only [interpret_commandline, he', Bool.and_false, Bool.false_and,
          Bool.and_true, Bool.true_and]
        rw [if_neg, if_neg, if_pos]
        · simp
        · simp only [Bool.and_eq_true, decide_eq_true_eq, List.length_cons]
          omega
        · simp [he']
  · intro cmdline hlen
    match cmdline with
    | [] => simp [interpret_commandline]
    | [x] => simp [interpret_commandline]
    | x :: y :: rest => simp at hlen

/-- Witness for C4: the four rules applied at concrete command lines,
including rule (c) on a two-token line whose second token suffix-matches
the module. -/
theorem C4_identity_verifier_witness :
    interpret_commandline 7 ["/usr/bin/python3", "/opt/bots/mybot", "bot1"] "mybot" "bot1" =
      .verdict true ∧
    interpret_commandline 7 ["/usr/bin/python3", "/usr/bin/intelmqctl", "run", "bot1"]
        "mybot" "bot1" = .verdict true ∧
    interpret_commandline 7 ["sh", "ls"] "mybot" "bot1" =
      .message ("Commandline of the process " ++ toString (7 : Int) ++
        " could not be interpreted.") ∧
    interpret_commandline 7 ["/usr/bin/python3", "/opt/bots/mybot"] "mybot" "bot1" =
      .message ("Commandline of the process " ++ toString (7 : Int) ++
        " could not be interpreted.") ∧
    interpret_commandline 7 ["sh"] "mybot" "bot1" =
      .message ("Unhandled error checking the process " ++ toString (7 : Int) ++ ".") := by
  refine ⟨?_, ?_, ?_, ?_, ?_⟩
  · have h := (C4_identity_verifier 7 "mybot" "bot1").1
      "/usr/bin/python3" "/opt/bots/mybot" "bot1" [] (by decide)
    rw [h]
    decide
  · have h := (C4_identity_verifier 7 "mybot" "bot1").2.1
      "/usr/bin/python3" "/usr/bin/intelmqctl" "bot1" [] (by decide) (by decide)
    rw [h]
    decide
  · exact (C4_identity_verifier 7 "mybot" "bot1").2.2.1 "sh" "ls" [] (by decide) (by decide)
  · exact (C4_identity_verifier 7 "mybot" "bot1").2.2.1 "/usr/bin/python3" "/opt/bots/mybot"
      [] (by decide) (by decide)
  · exact (C4_identity_verifier 7 "mybot" "bot1").2.2.2 ["sh"] (by decide)

/-! ## Claim C10 — the NG status query's range -/

/-- Claim C10: `IntelMQProcessManagerNG.bot_status` only ever returns one of
`running`, `unknown`, `stopped`, `disabled`, for every OS snapshot; the
transitional states and `failed` are never produced by a status
observation. -/
theorem C10_bot_status_range (e : BotEnv) :
    bot_status e = "running" ∨ bot_status e = "unknown" ∨
    bot_status e = "stopped" ∨ bot_status e = "disabled" := by
  unfold bot_status
  rcases (get_bot_process e).1 with _ | t
  · by_cases he : e.enabled <;> simp [he]
  · cases t <;> simp

/-! ## Claim C1 — `disabled` versus OS-level observation -/

/-- Claim C1, counterexample: a bot configured `enabled: false` whose PID
file names a live, identity-confirmed, non-terminal process.  The claim
demands `disabled` regardless of any OS-level observation; `bot_status`
returns `running`. -/
theorem C1_counterexample :
    BotEnv.enabled
      { pidFromFile := 1234, pidExists := true,
        modulePath := some "/opt/bots/mybot",
        intelmqctlPath := some "/usr/bin/intelmqctl",
        query := .found ["/usr/bin/python3", "/opt/bots/mybot", "bot1"] false true,
        enabled := false, botId := "bot1" } = false ∧
    bot_status
      { pidFromFile := 1234, pidExists := true,
        modulePath := some "/opt/bots/mybot",
        intelmqctlPath := some "/usr/bin/intelmqctl",
        query := .found ["/usr/bin/python3", "/opt/bots/mybot", "bot1"] false true,
        enabled := false, botId := "bot1" } = "running" ∧
    bot_status
      { pidFromFile := 1234, pidExists := true,
        modulePath := some "/opt/bots/mybot",
        intelmqctlPath := some "/usr/bin/intelmqctl",
        query := .found ["/usr/bin/python3", "/opt/bots/mybot", "bot1"] false true,
        enabled := false, botId := "bot1" } ≠ "disabled" := by
  refine ⟨rfl, by decide, ?_⟩
  intro h
  exact absurd h (by decide)

/-- Claim C1 (amended): for a bot configured `enabled: false`, `bot_status`
returns `disabled` exactly when `_get_bot_process` finds no live
identity-confirmed process — in particular whenever the PID file names a
live process whose command line does not match the bot (a stale PID file
pointing at an unrelated process).  When the lookup does return a process,
the OS-level observation takes precedence over the disabled flag and the
status is `running`/`unknown`, never `disabled`. -/
theorem C1_disabled_only_without_process (e : BotEnv) (hd : e.enabled = false) :
    ((get_bot_process e).1 = none → bot_status e = "disabled") ∧
    (∀ argv t w, e.query = .found argv t w → identityMatches e argv = false →
      bot_status e = "disabled") ∧
    ((get_bot_process e).1 ≠ none → bot_status e ≠ "disabled") := by
  refine ⟨?_, ?_, ?_⟩
  · intro h
    unfold bot_status
    rw [h, hd]
    simp
  · intro argv t w hq hm
    have h : (get_bot_process e).1 = none := by
      unfold get_bot_process
      by_cases h1 : e.pidFromFile == -1
      · simp [h1]
      · by_cases h2 : e.pidExists
        · rcases h3 : e.modulePath with _ | mp
          · simp [h1, h2, h3]
          · simp [h1, h2, h3, hq, hm]
        · simp [h1, h2]
    unfold bot_status
    rw [h, hd]
    simp
  · intro h
    unfold bot_status
    rcases hp : (get_bot_process e).1 with _ | t
    · exact absurd hp h
    · cases t <;> simp

/-- Witness for C1 (amended): a disabled bot with a stale PID file naming a
live process with an unrelated command line is reported `disabled`. -/
theorem C1_disabled_only_without_process_witness :
    bot_status
      { pidFromFile := 1234, pidExists := true,
        modulePath := some "/opt/bots/mybot",
        intelmqctlPath := some "/usr/bin/intelmqctl",
        query := .found ["bash", "/usr/bin/unrelated", "arg"] false true,
        enabled := false, botId := "bot1" } = "disabled" :=
  (C1_disabled_only_without_process
    { pidFromFile := 1234, pidExists := true,
      modulePath := some "/opt/bots/mybot",
      intelmqctlPath := some "/usr/bin/intelmqctl",
      query := .found ["bash", "/usr/bin/unrelated", "arg"] false true,
      enabled := false, botId := "bot1" } rfl).2.1
    ["bash", "/usr/bin/unrelated", "arg"] false true rfl (by decide)

/-! ## Claim C2 — stale PID file pointing at an unrelated live process -/

/-- Claim C2, counterexample: an enabled bot whose PID file names a live
process with an unrelated command line (identity mismatch).  The claim
demands `bot_status = "unknown"` and that `bot_start` not spawn;
the NG manager instead discards the PID file, reports `stopped`, and
`bot_start` immediately spawns a new process. -/
theorem C2_counterexample :
    bot_status
      { pidFromFile := 1234, pidExists := true,
        modulePath := some "/opt/bots/mybot",
        intelmqctlPath := some "/usr/bin/intelmqctl",
        query := .found ["bash", "/usr/bin/unrelated", "arg"] false true,
        enabled := true, botId := "bot1" } = "stopped" ∧
    bot_start
      { pidFromFile := 1234, pidExists := true,
        modulePath := some "/opt/bots/mybot",
        intelmqctlPath := some "/usr/bin/intelmqctl",
        query := .found ["bash", "/usr/bin/unrelated", "arg"] false true,
        enabled := true, botId := "bot1" } true = ("starting", true) := by
  constructor
  · decide
  · decide

/-- Claim C2 (amended): when the PID file names a live process whose
command line matches neither the module invocation nor the
`intelmqctl run <bot_id>` form, the NG manager removes the PID file and
`bot_status` reports `stopped` (or `disabled` for a disabled bot) — not
`unknown` — and `bot_start` proceeds to spawn.  `unknown` arises only for
an identity-confirmed process stuck in a terminal OS state, and in that
case `bot_start` returns `failed` without spawning (the stuck process
cannot be reaped). -/
theorem C2_mismatch_discards_unknown_blocks (e : BotEnv) :
    (∀ argv t w, e.pidFromFile ≠ -1 → e.pidExists = true → e.modulePath.isSome →
      e.query = .found argv t w → identityMatches e argv = false →
      get_bot_process e = (none, true) ∧
      bot_status e = (if e.enabled then "stopped" else "disabled")) ∧
    (∀ s, bot_status e = "unknown" → bot_start e s = ("failed", false)) := by
  constructor
  · intro argv t w h1 h2 h3 hq hm
    have h1' : (e.pidFromFile == -1) = false := by
      simp [h1]
    rcases h4 : e.modulePath with _ | mp
    · rw [h4] at h3
      simp at h3
    · have hp : get_bot_process e = (none, true) := by
        unfold get_bot_process
        simp [h1', h2, h4, hq, hm]
      refine ⟨hp, ?_⟩
      unfold bot_status
      rw [hp]
  · intro s hu
    have hq : ∃ argv, e.query = .found argv true false := by
      unfold bot_status at hu
      rcases hp : (get_bot_process e).1 with _ | t
      · rw [hp] at hu
        by_cases he : e.enabled <;> simp [he] at hu
      · rw [hp] at hu
        cases t
        · simp at hu
        · unfold get_bot_process at hp
          by_cases h1 : e.pidFromFile == -1
          · simp [h1] at hp
          · by_cases h2 : e.pidExists
            · rcases h3 : e.modulePath with _ | mp
              · simp [h1, h2, h3] at hp
              · rcases h5 : e.query with _ | _ | ⟨argv, term, wf⟩
                · simp [h1, h2, h3, h5] at hp
                · simp [h1, h2, h3, h5] at hp
                · refine ⟨argv, ?_⟩
                  by_cases hm : identityMatches e argv
                  · cases term
                    · simp [h1, h2, h3, h5, hm] at hp
                    · cases wf
                      · rfl
                      · simp [h1, h2, h3, h5, hm] at hp
                  · simp [h1, h2, h3, h5, hm] at hp
            · simp [h1, h2] at hp
    rcases hq with ⟨argv, hq⟩
    unfold bot_start
    rw [hu, hq]
    simp

/-- Witness for C2 (amended): the mismatch case on a concrete enabled bot,
and the stuck-terminal case where `bot_start` fails without spawning. -/
theorem C2_mismatch_discards_unknown_blocks_witness :
    (get_bot_process
      { pidFromFile := 1234, pidExists := true,
        modulePath := some "/opt/bots/mybot",
        intelmqctlPath := some "/usr/bin/intelmqctl",
        query := .found ["bash", "/usr/bin/unrelated", "arg"] false true,
        enabled := true, botId := "bot1" } = (none, true)) ∧
    bot_start
      { pidFromFile := 1234, pidExists := true,
        modulePath := some "/opt/bots/mybot",
        intelmqctlPath := some "/usr/bin/intelmqctl",
        query := .found ["/usr/bin/python3", "/opt/bots/mybot", "bot1"] true false,
        enabled := true, botId := "bot1" } true = ("failed", false) := by
  constructor
  · exact ((C2_mismatch_discards_unknown_blocks
      { pidFromFile := 1234, pidExists := true,
        modulePath := some "/opt/bots/mybot",
        intelmqctlPath := some "/usr/bin/intelmqctl",
        query := .found ["bash", "/usr/bin/unrelated", "arg"] false true,
        enabled := true, botId := "bot1" }).1
      ["bash", "/usr/bin/unrelated", "arg"] false true (by decide) rfl (by decide)
      rfl (by decide)).1
  · exact (C2_mismatch_discards_unknown_blocks
      { pidFromFile := 1234, pidExists := true,
        modulePath := some "/opt/bots/mybot",
        intelmqctlPath := some "/usr/bin/intelmqctl",
        query := .found ["/usr/bin/python3", "/opt/bots/mybot", "bot1"] true false,
        enabled := true, botId := "bot1" }).2 true (by decide)

/-! ## Claim C5 — selector resolution -/

/-- Claim C5, counterexample: the empty list is a list, and the claim's
list rule (sorted duplicate-free union of the per-element resolutions)
would resolve it to the empty set; `get_bots` instead treats `[]` like an
absent selector and returns all configured bot ids. -/
theorem C5_counterexample :
    get_bots [("a", {}), ("b", {})] (.list []) = .ok ["a", "b"] ∧
    (["a", "b"] : List String) ≠ ([] : List String) := by
  constructor
  · decide
  · decide

/-- Claim C5 (amended): an absent selector **or the empty list** yields all
configured bot ids (sorted); a single string resolves as a known group
(its member bot ids, sorted), else as a known bot id (itself), else raises
an unknown-bot error; a **non-empty** list yields the sorted,
duplicate-free union of the per-element resolutions, and any element that
is neither a known group nor a known bot id makes the whole call raise. -/
theorem C5_get_bots_selector_resolution (cfg : RuntimeConfiguration) :
    (get_bots cfg .none = .ok (pySorted (botIds cfg))) ∧
    (get_bots cfg (.list []) = .ok (pySorted (botIds cfg))) ∧
    (∀ s, isGroup s = true →
      get_bots cfg (.str s) = .ok (pySorted (groupMembers cfg s))) ∧
    (∀ s, isGroup s = false → (cfg.lookup s).isSome = true →
      get_bots cfg (.str s) = .ok [s]) ∧
    (∀ s, isGroup s = false → (cfg.lookup s).isSome = false →
      get_bots cfg (.str s) = .error s) ∧
    (∀ v vs, (∃ w ∈ v :: vs, isGroup w = false ∧ (cfg.lookup w).isNone = true) →
      ∃ m, get_bots cfg (.list (v :: vs)) = .error m) ∧
    (∀ v vs, (∀ w ∈ v :: vs, isGroup w = true ∨ (cfg.lookup w).isSome = true) →
      ∃ bs, get_bots cfg (.list (v :: vs)) = .ok bs ∧
        bs.Nodup ∧ List.Sorted strLe bs ∧
        (∀ b, b ∈ bs ↔
          ∃ w ∈ v :: vs, ∃ r, get_bots cfg (.str w) = .ok r ∧ b ∈ r)) := by
  refine ⟨rfl, rfl, ?_, ?_, ?_, ?_, ?_⟩
  · intro s hg
    simp [get_bots, get_bots_str, hg]
  · intro s hg hl
    simp [get_bots, get_bots_str, hg, hl]
  · intro s hg hl
    simp [get_bots, get_bots_str, hg, hl]
  · intro v vs h
    rcases get_bots_loop_error cfg (v :: vs) [] h with ⟨m, hm⟩
    refine ⟨m, ?_⟩
    simp [get_bots, hm, Except.map]
  · intro v vs h
    rcases get_bots_loop_ok cfg (v :: vs) [] h with ⟨res, heq, hmem⟩
    refine ⟨pySortedDedup res, ?_, nodup_pySortedDedup res, sorted_pySortedDedup res, ?_⟩
    · simp [get_bots, heq, Except.map]
    · intro b
      rw [mem_pySortedDedup, hmem b]
      simp only [List.not_mem_nil, false_or]
      constructor
      · rintro ⟨w, hw, r, hr, hbr⟩
        exact ⟨w, hw, r, hr, hbr⟩
      · rintro ⟨w, hw, r, hr, hbr⟩
        exact ⟨w, hw, r, hr, hbr⟩

/-- Witness for C5 (amended): the spec's own example — resolving
`["parsers", "my-custom-bot"]` gives the sorted union of the Parser-group
bot ids and the custom bot, and a bare group name expands to its sorted
member list. -/
theorem C5_get_bots_selector_resolution_witness :
    get_bots
        [("my-custom-bot", {}),
         ("p2", { group := some "Parser" }),
         ("p1", { group := some "Parser" })]
        (.str "parsers") = .ok ["p1", "p2"] ∧
    (∃ bs, get_bots
        [("my-custom-bot", {}),
         ("p2", { group := some "Parser" }),
         ("p1", { group := some "Parser" })]
        (.list ["parsers", "my-custom-bot"]) = .ok bs ∧
      bs.Nodup ∧ List.Sorted strLe bs ∧
      (∀ b, b ∈ bs ↔
        ∃ w ∈ ["parsers", "my-custom-bot"], ∃ r,
          get_bots
            [("my-custom-bot", {}),
             ("p2", { group := some "Parser" }),
             ("p1", { group := some "Parser" })]
            (.str w) = .ok r ∧ b ∈ r)) := by
  constructor
  · have h := (C5_get_bots_selector_resolution
      [("my-custom-bot", {}),
       ("p2", { group := some "Parser" }),
       ("p1", { group := some "Parser" })]).2.2.1 "parsers" (by decide)
    rw [h]
    decide
  · exact (C5_get_bots_selector_resolution
      [("my-custom-bot", {}),
       ("p2", { group := some "Parser" }),
       ("p1", { group := some "Parser" })]).2.2.2.2.2.2
      "parsers" ["my-custom-bot"] (by decide)

/-! ## Claim C6 — queue-name derivation -/

/-- Claim C6, counterexample: with internal queues requested (and not
`all`), the result contains only `{id}-queue-internal`; the claim demands
that `{id}-queue` be present in every case. -/
theorem C6_counterexample :
    get_queues [("a", {})] (.str "a") true false = .ok ["a-queue-internal"] ∧
    "a-queue" ∉ (["a-queue-internal"] : List String) := by
  constructor
  · decide
  · decide

/-- Claim C6 (amended): after resolving bot ids, the result is the sorted
duplicate-free list containing, for each resolved bot id, `{id}-queue`
exactly when `all` is requested or internal queues are **not** requested,
and `{id}-queue-internal` exactly when `all` or internal queues are
requested (so with `internal` and not `all`, the plain `{id}-queue` names
are absent). -/
theorem C6_get_queues_derivation (cfg : RuntimeConfiguration) (sel : Selector)
    (internal all : Bool) (bs : List String)
    (h : get_bots cfg sel = .ok bs) :
    ∃ qs, get_queues cfg sel internal all = .ok qs ∧
      qs.Nodup ∧ List.Sorted strLe qs ∧
      (∀ q, q ∈ qs ↔ ∃ b ∈ bs,
        (q = b ++ "-queue" ∧ (all || !internal) = true) ∨
        (q = b ++ "-queue-internal" ∧ (all || internal) = true)) := by
  unfold get_queues
  rw [h]
  refine ⟨_, rfl, nodup_pySortedDedup _, sorted_pySortedDedup _, ?_⟩
  intro q
  rw [mem_pySortedDedup]
  cases all <;> cases internal <;> simp <;> aesop

/-- Witness for C6 (amended): concrete derivation over two bots with
`all = true`: both plain and internal queue names appear, sorted and
without duplicates. -/
theorem C6_get_queues_derivation_witness :
    ∃ qs, get_queues [("a", {}), ("b", {})] .none false true = .ok qs ∧
      qs.Nodup ∧ List.Sorted strLe qs ∧
      (∀ q, q ∈ qs ↔ ∃ b ∈ ["a", "b"],
        (q = b ++ "-queue" ∧ (true || !false) = true) ∨
        (q = b ++ "-queue-internal" ∧ (true || false) = true)) :=
  C6_get_queues_derivation [("a", {}), ("b", {})] .none false true ["a", "b"] (by decide)

/-! ## Claim C7 — independent per-queue clearing -/

/-- The `queue_clear` accumulation loop, written as a `map`. -/
theorem queue_clear_foldl (f : String → Bool) :
    ∀ (qs : List String) (acc : List (String × String)),
      qs.foldl (fun acc q =>
        if f q then acc ++ [(q, "cleared")] else acc ++ [(q, "failed")]) acc =
      acc ++ qs.map (fun q => (q, if f q then "cleared" else "failed")) := by
  intro qs
  induction qs with
  | nil =>
    intro acc
    simp
  | cons q qs ih =>
    intro acc
    by_cases hf : f q
    · simp [hf, ih]
    · simp [hf, ih]

/-- Looking up a key of a `map`-built association list whose values are a
function of the key. -/
theorem lookup_map_pair (f : String → String) :
    ∀ (qs : List String) (q : String), q ∈ qs →
      (qs.map (fun x => (x, f x))).lookup q = some (f q) := by
  intro qs
  induction qs with
  | nil =>
    intro q hq
    simp at hq
  | cons x xs ih =>
    intro q hq
    by_cases hqx : q = x
    · simp [List.lookup, hqx]
    · have hq' : q ∈ xs := by
        rcases List.mem_cons.mp hq with h | h
        · exact absurd h hqx
        · exact h
      have hbeq : (q == x) = false := by
        simpa using hqx
      simp [List.lookup, hbeq, ih q hq']

/-- Claim C7: `queue_clear` attempts every derived queue independently —
for every behaviour of the transport's `clear_queue` (succeed or raise),
the result maps each derived queue, in order, to `cleared` when the call
succeeded and `failed` when it raised; a failure on one queue never
removes later (or earlier) queues from the report. -/
theorem C7_queue_clear_independent (cfg : RuntimeConfiguration) (sel : Selector)
    (internal all : Bool) (clearSucceeds : String → Bool) (qs : List String)
    (h : get_queues cfg sel internal all = .ok qs) :
    queue_clear cfg sel internal all clearSucceeds =
      .ok (qs.map (fun q => (q, if clearSucceeds q then "cleared" else "failed"))) ∧
    ∀ q ∈ qs,
      (qs.map (fun q => (q, if clearSucceeds q then "cleared" else "failed"))).lookup q =
        some (if clearSucceeds q then "cleared" else "failed") := by
  constructor
  · unfold queue_clear
    rw [h]
    have hf := queue_clear_foldl clearSucceeds qs []
    simp only [Except.map]
    rw [hf]
    simp
  · intro q hq
    exact lookup_map_pair (fun q => if clearSucceeds q then "cleared" else "failed") qs q hq

/-- Witness for C7: the spec's two-bot scenario where exactly the second
clear call raises: `{a-queue: cleared, b-queue: failed}`. -/
theorem C7_queue_clear_independent_witness :
    queue_clear [("a", {}), ("b", {})] .none false false (fun q => q == "a-queue") =
      .ok [("a-queue", "cleared"), ("b-queue", "failed")] := by
  have h := (C7_queue_clear_independent [("a", {}), ("b", {})] .none false false
    (fun q => q == "a-queue") ["a-queue", "b-queue"] (by decide)).1
  rw [h]
  decide

/-! ## Claim C8 — scoped edit transactions write back only on change -/

/-- Claim C8: the scoped edit transaction rewrites the configuration file
if and only if the in-memory configuration content changed across the edit
block.  The code compares `hash(str(config))` before and after: whenever
the hash separates distinct renderings (and the rendering separates
distinct configurations), the write-back happens exactly on change, and
the unchanged case never touches the disk. -/
theorem C8_edit_transaction (Cfg Hash : Type) [DecidableEq Hash]
    (hash : String → Hash) (render : Cfg → String) (cfg : Cfg) (edit : Cfg → Cfg)
    (hhash : Function.Injective hash) (hrender : Function.Injective render) :
    ((edit_runtime_configuration hash render cfg edit).written = true ↔ edit cfg ≠ cfg) ∧
    ((edit_pipeline_configuration hash render cfg edit).written = true ↔ edit cfg ≠ cfg) ∧
    (edit_runtime_configuration hash render cfg edit).result = edit cfg ∧
    (edit_pipeline_configuration hash render cfg edit).result = edit cfg := by
  have h1 : ∀ x y : Cfg, hash (render x) = hash (render y) ↔ x = y := by
    intro x y
    constructor
    · intro h
      exact hrender (hhash h)
    · intro h
      rw [h]
  refine ⟨?_, ?_, rfl, rfl⟩
  · simp only [edit_runtime_configuration, decide_eq_true_eq]
    rw [h1]
    exact ne_comm
  · simp only [edit_pipeline_configuration, decide_eq_true_eq]
    rw [h1]
    exact ne_comm

/-- Witness for C8: with an injective hash and rendering, an edit that
appends a character triggers the write-back, and the identity edit leaves
the file untouched. -/
theorem C8_edit_transaction_witness :
    (edit_runtime_configuration (fun s : String => s) (fun s : String => s)
      "" (fun s => s ++ "x")).written = true ∧
    (edit_pipeline_configuration (fun s : String => s) (fun s : String => s)
      "" (fun s => s)).written = false := by
  constructor
  · exact ((C8_edit_transaction String String (fun s => s) (fun s => s) ""
      (fun s => s ++ "x") (fun _ _ h => h) (fun _ _ h => h)).1).mpr (by decide)
  · have h := (C8_edit_transaction String String (fun s => s) (fun s => s) ""
      (fun s => s) (fun _ _ h => h) (fun _ _ h => h)).2.1
    have hne : ¬ (edit_pipeline_configuration (fun s : String => s) (fun s : String => s)
        "" (fun s => s)).written = true := fun ht => (h.mp ht) rfl
    simpa using hne

/-! ## Claim C9 — bounded polling -/

/-- Claim C9, counterexample: when the supervision daemon keeps answering
`STARTING`, the Supervised backend's status query recurses forever — no
recursion depth suffices for it to return — rather than degrading to a
reported outcome within a fixed retry budget. -/
theorem C9_counterexample :
    supervisorStatusDiverges true (fun _ => some ProcessState.starting) := by
  intro fuel
  induction fuel with
  | zero =>
    intro k
    rfl
  | succ n ih =>
    intro k
    have h := ih (k + 1)
    simpa [supervisor_bot_status] using h

/-- Claim C9 (amended): the restart running-check loop is bounded by its
fixed attempt budget for every status behaviour, and the Supervised status
query terminates as soon as the daemon reports anything other than
`Starting` — but it has no retry budget of its own: on a persistently
`Starting` process it recurses indefinitely instead of degrading to
`unknown`/`failed`. -/
theorem C9_bounded_observation_polls :
    (∀ (enabled : Bool) (stateAt : Nat → Option ProcessState) (k n : Nat),
      stateAt (k + n) ≠ some ProcessState.starting →
      (supervisor_bot_status enabled stateAt k (n + 1)).isSome = true) ∧
    (∀ (ok : Nat → Bool) (i fuel : Nat), restartPollLoop ok i fuel ≤ fuel) := by
  constructor
  · intro enabled stateAt k n
    induction n generalizing k with
    | zero =>
      intro h
      rw [Nat.add_zero] at h
      unfold supervisor_bot_status
      rcases hs : stateAt k with _ | st
      · simp
      · rw [hs] at h
        cases st
        case starting => exact absurd rfl h
        all_goals simp
    | succ m ih =>
      intro h
      unfold supervisor_bot_status
      rcases hs : stateAt k with _ | st
      · simp
      · cases st
        case starting =>
          refine ih (k + 1) ?_
          have he : k + 1 + m = k + (m + 1) := by omega
          rw [he]
          exact h
        all_goals simp
  · intro ok i fuel
    exact restartPollLoop_le ok fuel i

/-- Witness for C9 (amended): a daemon that reports `Starting` twice and
then `Running` is answered within three queries, and the restart poll loop
with its budget of ten never exceeds ten polls. -/
theorem C9_bounded_observation_polls_witness :
    (supervisor_bot_status true
      (fun i => if i < 2 then some ProcessState.starting else some ProcessState.running)
      0 3).isSome = true ∧
    restartPollLoop (fun _ => false) 0 10 ≤ 10 := by
  constructor
  · exact C9_bounded_observation_polls.1 true
      (fun i => if i < 2 then some ProcessState.starting else some ProcessState.running)
      0 2 (by decide)
  · exact C9_bounded_observation_polls.2 (fun _ => false) 0 10

/-! ## Claim C3 — composition of restart -/

/-- Claim C3, counterexample: two target bots, one already stopped (its
`bot_stop` returns `stopped`), the other stuck (`bot_status` keeps
reporting `running`).  The claim demands that restart start **all** target
bots and never issue a start while a bot still reports `running`; the code
starts only the bots whose stop returned `stopping` — bot `a` is never
started — and, after exhausting its ten polls, issues the start for `b`
even though the last poll still reported `running`. -/
theorem C3_counterexample :
    get_bots [("a", {}), ("b", {})] .none = .ok ["a", "b"] ∧
    bots_restart [("a", {}), ("b", {})]
      { stop := fun b => if b == "b" then "stopping" else "stopped",
        statusAt := fun _ _ => "running",
        start := fun _ => "starting" } .none =
      .ok ([("a", "stopped"), ("b", "stopping")], [("b", "starting")], 10) ∧
    "a" ∉ (([("b", "starting")] : List (String × String)).map Prod.fst) := by
  refine ⟨by decide, by decide, by decide⟩

/-- Claim C3 (amended): restart resolves the target selector, issues
`stop` through `bots_stop` (which re-resolves the target list via
`get_bots`, so the stopped set is the sorted duplicate-free re-resolution
of the targets), filters the bots whose stop returned `stopping`, polls
`bots_status` over the re-resolution of that subset at fixed intervals
with at most ten attempts, breaking as soon as none of them reports
`running`, and finally issues `start` via `bots_start` on the
re-resolution of that subset.  Because `get_bots` treats an empty list
like an absent selector, an **empty** `stopping` subset makes the poll
and the final start cover **all configured bots** — restarting
already-stopped bots starts the whole fleet; only when the subset is
non-empty is start confined to (the re-resolution of) the `stopping`
bots.  After budget exhaustion the start is issued even while a bot still
reports `running` (the backend's `bot_start` then returns `running`
without spawning). -/
theorem C3_restart_composition (cfg : RuntimeConfiguration) (o : PMOracle)
    (sel : Selector) (bots rbots pbots : List String)
    (h1 : get_bots cfg sel = .ok bots)
    (h2 : get_bots cfg (.list bots) = .ok rbots)
    (h3 : get_bots cfg (.list (rbots.filter (fun b => o.stop b == "stopping"))) =
      .ok pbots) :
    ∃ polls,
      bots_restart cfg o sel =
        .ok (rbots.map (fun b => (b, o.stop b)),
             pbots.map (fun b => (b, o.start b)),
             polls) ∧
      1 ≤ polls ∧ polls ≤ 10 ∧
      (polls < 10 → noneRunning o.statusAt pbots (polls - 1) = true) ∧
      (∀ j, j + 1 < polls → noneRunning o.statusAt pbots j = false) ∧
      (rbots.filter (fun b => o.stop b == "stopping") = [] →
        pbots = pySorted (botIds cfg)) := by
  have hst : ((rbots.map (fun b => (b, o.stop b))).filter
      (fun p => p.2 == "stopping")).map Prod.fst =
      rbots.filter (fun b => o.stop b == "stopping") :=
    map_filter_stop o.stop rbots
  refine ⟨restartPollLoop (noneRunning o.statusAt pbots) 0 10, ?_, ?_, ?_, ?_, ?_, ?_⟩
  · simp only [bots_restart, h1, bots_stop, bots_start, Except.map, h2, hst,
      restartStatusLoop_resolved cfg o
        (rbots.filter (fun b => o.stop b == "stopping")) pbots h3 10 0, h3]
  · exact restartPollLoop_pos _ 9 0
  · exact restartPollLoop_le _ 10 0
  · intro hlt
    have hb := restartPollLoop_break (noneRunning o.statusAt pbots) 10 0 hlt
    rw [Nat.zero_add] at hb
    exact hb
  · intro j hj
    have hb := restartPollLoop_before (noneRunning o.statusAt pbots) 10 0 j hj
    rw [Nat.zero_add] at hb
    exact hb
  · intro hemp
    rw [hemp] at h3
    injection h3 with h3'
    exact h3'.symm

/-- Witness for C3 (amended): both bots stop with `stopping` (so the
subset is non-empty and re-resolves to itself), the first poll round still
sees one `running`, the second sees none — restart starts exactly the two
stopped bots after two polls. -/
theorem C3_restart_composition_witness :
    ∃ polls,
      bots_restart [("a", {}), ("b", {})]
        { stop := fun _ => "stopping",
          statusAt := fun i b => if i == 0 && b == "a" then "running" else "stopped",
          start := fun _ => "starting" } .none =
        .ok ((["a", "b"].map (fun b => (b,
               ({ stop := fun _ => "stopping",
                  statusAt := fun i b => if i == 0 && b == "a" then "running" else "stopped",
                  start := fun _ => "starting" } : PMOracle).stop b))),
             (["a", "b"].map (fun b => (b,
               ({ stop := fun _ => "stopping",
                  statusAt := fun i b => if i == 0 && b == "a" then "running" else "stopped",
                  start := fun _ => "starting" } : PMOracle).start b))),
             polls) ∧
      1 ≤ polls ∧ polls ≤ 10 ∧
      (polls < 10 →
        noneRunning
          ({ stop := fun _ => "stopping",
             statusAt := fun i b => if i == 0 && b == "a" then "running" else "stopped",
             start := fun _ => "starting" } : PMOracle).statusAt
          ["a", "b"] (polls - 1) = true) ∧
      (∀ j, j + 1 < polls →
        noneRunning
          ({ stop := fun _ => "stopping",
             statusAt := fun i b => if i == 0 && b == "a" then "running" else "stopped",
             start := fun _ => "starting" } : PMOracle).statusAt
          ["a", "b"] j = false) ∧
      ((["a", "b"].filter (fun b =>
          ({ stop := fun _ => "stopping",
             statusAt := fun i b => if i == 0 && b == "a" then "running" else "stopped",
             start := fun _ => "starting" } : PMOracle).stop b == "stopping")) = [] →
        (["a", "b"] : List String) = pySorted (botIds [("a", {}), ("b", {})])) :=
  C3_restart_composition [("a", {}), ("b", {})]
    { stop := fun _ => "stopping",
      statusAt := fun i b => if i == 0 && b == "a" then "running" else "stopped",
      start := fun _ => "starting" } .none ["a", "b"] ["a", "b"] ["a", "b"]
    (by decide) (by decide) (by decide)

end IntelMQ
